import Mathlib

/-!
Verification development for the fleet deployment orchestrator of the
Status-Updater repository.  The Go installer (package `main`) is shallowly
embedded: every remote interaction is driven by explicit oracles collected in
a `World` structure, and each installer routine returns the ordered list of
remote events it performed (commands run, files pushed) together with an
optional error message, mirroring the Go control flow statement by statement.
-/

namespace StatusUpdater

/-! ### Path helpers (models of `path/filepath.Base` and `path/filepath.Dir`
for slash-separated paths, implemented by structural recursion so that they
reduce in the kernel) -/

/-- Split a character list on a separator character; models `strings.Split`. -/
def splitOnChar (c : Char) : List Char → List (List Char)
  | [] => [[]]
  | a :: as =>
    let r := splitOnChar c as
    if a == c then [] :: r
    else
      match r with
      | [] => [[a]]
      | g :: gs => (a :: g) :: gs

/-- The slash-separated components of a path. -/
def pathParts (p : String) : List String :=
  (splitOnChar '/' p.data).map (fun cs => String.mk cs)

/-- Model of Go `filepath.Base`: the last non-empty slash-separated component. -/
def baseName (p : String) : String :=
  if p = "" then "."
  else
    match ((pathParts p).filter (fun s => s != "")).getLast? with
    | some b => b
    | none => "/"

/-- Model of Go `filepath.Dir`: everything before the last component. -/
def dirName (p : String) : String :=
  let parts := pathParts p
  if parts.length ≤ 1 then "." else String.intercalate "/" parts.dropLast

/-- Does `pat` occur at the head of `s`?  (Character-list matcher.) -/
def charsLead : List Char → List Char → Bool
  | [], _ => true
  | _ :: _, [] => false
  | a :: as, b :: bs => a == b && charsLead as bs

/-- Does `pat` occur anywhere inside `s`? -/
def charsContains (pat : List Char) : List Char → Bool
  | [] => charsLead pat []
  | c :: rest => charsLead pat (c :: rest) || charsContains pat rest

/-- Model of Go `strings.Contains s pat`. -/
def strContains (s pat : String) : Bool := charsContains pat.data s.data

/-- Model of Go `strings.HasPrefix s pat` (used only in statements). -/
def strLeads (s pat : String) : Bool := charsLead pat.data s.data

/-! ### Remote Session Transport: `connectSSH` (src/unnamed/part_011:251-274)

The Go function dials up to `maxRetries` times, sleeping `retryDelaySec`
between attempts; it branches only on `err == nil`, never on the kind of
error, so an authentication rejection and a network failure are treated
identically.  The dial outcome of each attempt is supplied by an oracle. -/

/-- Outcome of one `ssh.Dial` attempt.  `authErr` and `netErr` distinguish, in
the model, an authentication-level rejection from a network-level failure; the
Go code only ever observes whether the attempt returned a non-nil error. -/
inductive ConnResult
  | ok
  | authErr
  | netErr
deriving DecidableEq, Repr

/-- `const maxRetries = 3` in `connectSSH`. -/
def maxRetries : Nat := 3

/-- The fixed delay `time.Sleep(2 * time.Second)` between attempts, seconds. -/
def retryDelaySec : Nat := 2

/-- The retry loop of `connectSSH`: returns the index of the first successful
attempt, `none` if the fuel (remaining retries) runs out. -/
def connectLoop (attempt : Nat → ConnResult) : Nat → Nat → Option Nat
  | 0, _ => none
  | fuel + 1, i => if attempt i = ConnResult.ok then some i else connectLoop attempt fuel (i + 1)

/-- `connectSSH` for a single (host, user, password) triple: the result of the
3-attempt retry loop, driven by the per-attempt dial oracle. -/
def connectSSH (attempt : Nat → ConnResult) : Option Nat :=
  connectLoop attempt maxRetries 0

/-- The indices of the dial attempts actually performed by the retry loop. -/
def connectTrace (attempt : Nat → ConnResult) : Nat → Nat → List Nat
  | 0, _ => []
  | fuel + 1, i =>
    i :: (if attempt i = ConnResult.ok then [] else connectTrace attempt fuel (i + 1))

/-- All dial attempts `connectSSH` performs for one credential. -/
def connAttempts (attempt : Nat → ConnResult) : List Nat :=
  connectTrace attempt maxRetries 0

/-! ### Artifact Transfer: `transferFile` (src/unnamed/part_011:217-243) -/

/-- The remote receiving command of the sink protocol:
`/usr/bin/scp ... -t remotePath`. -/
def scpCommand (remotePath : String) : String :=
  "/usr/bin/scp -o StrictHostKeyChecking=no -o UserKnownHostsFile=/dev/null -t " ++ remotePath

/-- The single-file header `C0644 <len> <basename>\n` written to the stream
(`fmt.Fprintf(w, "C0644 %d %s\n", len(data), filepath.Base(remotePath))`).
File contents are modelled as `String`s of bytes, so `data.length` models
`len(data)`. -/
def scpHeader (data remotePath : String) : String :=
  "C0644 " ++ toString data.length ++ " " ++ baseName remotePath ++ "\n"

/-- The full byte stream written to the session's stdin: header, raw bytes,
one terminating null byte. -/
def scpStream (data remotePath : String) : String :=
  scpHeader data remotePath ++ data ++ "\x00"

/-- `transferFile`: runs the scp sink command while feeding it the stream; the
remote side's acceptance is an oracle of the command and the stream.  Any
non-zero exit is surfaced as a `TransferError`. -/
def transferFile (remote : String → String → Bool) (data remotePath : String) :
    Except String Unit :=
  if remote (scpCommand remotePath) (scpStream data remotePath) then Except.ok ()
  else Except.error "scp command failed"

/-- A sequence of pushes through the same transport (used to state protocol
idempotence of two successive identical pushes). -/
def pushSeq (remote : String → String → Bool) (ps : List (String × String)) :
    List (Except String Unit) :=
  ps.map (fun dp => transferFile remote dp.1 dp.2)

/-! ### The oracle world -/

/-- Oracles describing one remote host and the local filesystem, as the
installer observes them.  `connAttempt u i` is the outcome of the `i`-th dial
attempt for username `u`; `osRelease` is the stdout of `cat /etc/os-release`
(`none` when the command fails); `run c` is the success of `session.Run c`;
`scpOk cmd stream` is the success of a sink-protocol exchange; `seed` feeds
the pseudo-random jitter.  Session creation (`client.NewSession`) is modelled
as always succeeding. -/
structure World where
  connAttempt : String → Nat → ConnResult
  osRelease : Option String
  localExists : String → Bool
  readFile : String → Option String
  run : String → Bool
  scpOk : String → String → Bool
  seed : Nat

/-! ### Remote event traces -/

/-- One observable remote interaction: a command executed over a session, or a
file pushed via the sink protocol. -/
inductive REvent
  | cmd (c : String)
  | push (data remotePath : String)
deriving DecidableEq, Repr

/-- Sequencing of two traced steps: if the first failed, the second never
runs (its events do not happen); otherwise the traces concatenate. -/
def seqR (a : List REvent × Option String) (k : Unit → List REvent × Option String) :
    List REvent × Option String :=
  match a.2 with
  | some e => (a.1, some e)
  | none => (a.1 ++ (k ()).1, (k ()).2)

/-- Run one remote command; on non-zero exit, fail with `msg`. -/
def stepRun (w : World) (c msg : String) : List REvent × Option String :=
  ([REvent.cmd c], if w.run c then none else some msg)

/-- Push one file via `transferFile`, recording the push event. -/
def transferStep (w : World) (data remotePath : String) : List REvent × Option String :=
  ([REvent.push data remotePath],
   match transferFile w.scpOk data remotePath with
   | Except.ok _ => none
   | Except.error e => some e)

/-! ### Flavor Detector: `checkBuildroot` (src/unnamed/part_011:276-291) -/

/-- `checkBuildroot`: false when the session cannot be created, false when the
single `cat /etc/os-release` read fails, otherwise a substring test for
"Buildroot" on the captured stdout.  Total with codomain `Bool` — `true`
models `Embedded`, `false` models `PackageManaged`. -/
def checkBuildroot (sessionOk : Bool) (runResult : Option String) : Bool :=
  if !sessionOk then false
  else
    match runResult with
    | none => false
    | some out => strContains out "Buildroot"

/-! ### Embedded-profile strategy: `installBuildroot` (src/unnamed/part_011:293-442) -/

/-- The `files` map of `installBuildroot`: local artifact name paired with its
fixed remote destination (in Go source order). -/
def brFiles : List (String × String) :=
  [("status-updater", "/opt/status-updater/status-updater"),
   ("cacert.pem", "/opt/status-updater/cacert.pem"),
   ("config", "/opt/status-updater/config")]

/-- The precondition loop: `os.Stat` every local artifact before anything
else; the first missing file yields the error, and no remote event occurs. -/
def checkLocal (w : World) : List (String × String) → Option String
  | [] => none
  | f :: t =>
    if w.localExists f.1 then checkLocal w t
    else some ("local file " ++ f.1 ++ " does not exist")

/-- The directory-creation loop: one `mkdir -p` per destination path. -/
def mkdirSteps (w : World) : List (String × String) → List REvent × Option String
  | [] => ([], none)
  | f :: t =>
    seqR (stepRun w ("mkdir -p " ++ dirName f.2) ("failed to create directory " ++ dirName f.2))
      (fun _ => mkdirSteps w t)

/-- The artifact-transfer loop: read each local file, push it to its remote
destination; the first failure aborts. -/
def transferSteps (w : World) : List (String × String) → List REvent × Option String
  | [] => ([], none)
  | f :: t =>
    match w.readFile f.1 with
    | none => ([], some ("failed to read file " ++ f.1))
    | some data => seqR (transferStep w data f.2) (fun _ => transferSteps w t)

/-- Model of Go `rand.Intn n` after seeding: a value uniformly distributed in
`[0, n)`; represented as the seed reduced mod `n`. -/
def randIntn (n seed : Nat) : Nat := seed % n

/-- The init-script template up to (and including the indentation before) the
`sleep %d` jitter line. -/
def initHead : String :=
  "#!/bin/sh\n### BEGIN INIT INFO\n# Provides:          status-updater\n# Required-Start:    $remote_fs $syslog\n# Required-Stop:     $remote_fs $syslog\n# Default-Start:     2 3 4 5\n# Default-Stop:      0 1 6\n# Short-Description: Start daemon at boot time\n# Description:       Enable service provided by daemon.\n### END INIT INFO\n\nDAEMON_PATH=\"/opt/status-updater\"\nDAEMON=\"$DAEMON_PATH/status-updater\"\nDAEMON_NAME=\"status-updater\"\nPIDFILE=\"/var/run/$DAEMON_NAME.pid\"\nLOGFILE=\"/var/log/$DAEMON_NAME.log\"\n\n. /lib/lsb/init-functions\n\ndo_start() \x7b\n    log_daemon_msg \"Starting $DAEMON_NAME\"\n    "

/-- The init-script template after the jitter value. -/
def initTail : String :=
  "\n    start-stop-daemon --start --background --make-pidfile --pidfile $PIDFILE --chdir $DAEMON_PATH --exec $DAEMON -- >> $LOGFILE 2>&1\n    log_end_msg $?\n\x7d\n\ndo_stop() \x7b\n    log_daemon_msg \"Stopping $DAEMON_NAME\"\n    start-stop-daemon --stop --pidfile $PIDFILE --retry 10\n    log_end_msg $?\n\x7d\n\ncase \"$1\" in\n  start)\n    do_start\n    ;;\n  stop)\n    do_stop\n    ;;\n  restart)\n    do_stop\n    do_start\n    ;;\n  status)\n    status_of_proc -p $PIDFILE $DAEMON $DAEMON_NAME && exit 0 || exit $?\n    ;;\n  *)\n    echo \"Usage: /etc/init.d/$DAEMON_NAME \x7bstart|stop|restart|status\x7d\"\n    exit 1\n    ;;\nesac\nexit 0"

/-- `fmt.Sprintf(template, randomDelay)`: the generated service-supervisor
script with the jitter `d` spliced into its `sleep` line. -/
def genInitScript (d : Nat) : String :=
  initHead ++ ("sleep " ++ toString d) ++ initTail

/-- The remote phase of `installBuildroot`, reached only after the local
precondition check: `mkdir -p` per destination, the three artifact pushes, the
generated init script push, `chmod +x`, init-system registration, service
start and process-table verification — failing fast at each step. -/
def installBuildrootBody (w : World) : List REvent × Option String :=
  seqR (mkdirSteps w brFiles) fun _ =>
  seqR (transferSteps w brFiles) fun _ =>
  seqR (transferStep w (genInitScript (randIntn 600 w.seed)) "/etc/init.d/status-updater") fun _ =>
  seqR (stepRun w "chmod +x /etc/init.d/status-updater" "failed to make init script executable") fun _ =>
  seqR (stepRun w "update-rc.d status-updater defaults" "failed to enable service") fun _ =>
  seqR (stepRun w "/etc/init.d/status-updater start" "failed to start service") fun _ =>
  stepRun w "ps aux | grep status-updater | grep -v grep"
    "service verification failed - status-updater might not be running"

/-- `installBuildroot`: precondition check on every local artifact first; any
missing artifact fails the host before the remote phase begins. -/
def installBuildroot (w : World) : List REvent × Option String :=
  match checkLocal w brFiles with
  | some e => ([], some e)
  | none => installBuildrootBody w

/-! ### Package-profile strategy: `installDeb` (src/unnamed/part_011:444-534) -/

/-- The combined unzip-install-cleanup command of the side-bundle step
(`unzip && sudo dpkg -i && rm -rf`), with the elevation secret piped in. -/
def lldpdCmd (remoteZip password : String) : String :=
  "\n\t\t\tunzip -o " ++ remoteZip ++ " -d /tmp/lldpd-packages && \\\n\t\t\techo " ++
    password ++ " | sudo -S dpkg -i /tmp/lldpd-packages/*.deb && \\\n\t\t\trm -rf /tmp/lldpd-packages " ++
    remoteZip ++ "\n\t\t"

/-- The optional side-bundle step of `installDeb`: read the local zip, push it
to `/tmp`, unpack and install its packages; the first failure aborts. -/
def sideBundle (w : World) (password : String) : List REvent × Option String :=
  match w.readFile "lldpd-packages.zip" with
  | none => ([], some "failed to read zip file")
  | some zipData =>
    seqR (transferStep w zipData ("/tmp/" ++ baseName "lldpd-packages.zip")) fun _ =>
    stepRun w (lldpdCmd ("/tmp/" ++ baseName "lldpd-packages.zip") password)
      "failed to install lldpd from zip"

/-- `installDeb`: optional side bundle first, then push the main package file
to `/tmp`, `dpkg -i` it, `systemctl start`, `systemctl status` — failing fast
at each step. -/
def installDeb (w : World) (debData debFile password : String) (installLldpd : Bool) :
    List REvent × Option String :=
  seqR (if installLldpd then sideBundle w password else ([], none)) fun _ =>
  seqR (transferStep w debData ("/tmp/" ++ baseName debFile)) fun _ =>
  seqR (stepRun w ("echo " ++ password ++ " | sudo -S dpkg -i " ++ ("/tmp/" ++ baseName debFile))
    "failed to install .deb file") fun _ =>
  seqR (stepRun w ("echo " ++ password ++ " | sudo -S systemctl start status-updater")
    "failed to start service") fun _ =>
  stepRun w ("echo " ++ password ++ " | sudo -S systemctl status status-updater")
    "service verification failed - status-updater might not be running"

/-! ### Host Worker (the per-host goroutine body, src/unnamed/part_011:127-173)

In the Go program the username list always holds exactly one name (both arms
of the device-class switch build a singleton), so the credential loop is
modelled for nonempty lists; an empty list would make the Go code proceed with
a nil client, which the model does not represent. -/

/-- Worker-level observable actions: a connect attempt for a username, the
flavor-detection read, or the dispatch into one of the two installation
strategies. -/
inductive WEvent
  | connectTry (u : String)
  | detect
  | strategy (buildroot : Bool)
deriving DecidableEq, Repr

/-- The credential loop of the worker: try each username with `connectSSH` in
order, stopping at the first success.  Returns the usernames actually tried
and the successful one, if any. -/
def tryUsers (w : World) : List String → List String × Option String
  | [] => ([], none)
  | u :: rest =>
    match connectSSH (w.connAttempt u) with
    | some _ => ([u], some u)
    | none =>
      let p := tryUsers w rest
      (u :: p.1, p.2)

/-- The result of one host worker: its event trace, whether the install
succeeded, and the username whose credential was used. -/
structure WorkerOut where
  events : List WEvent
  succeeded : Bool
  usedUser : Option String
deriving DecidableEq, Repr

/-- One host worker: the credential loop, then — only on a successful
connection — flavor detection and the matching installation strategy, the
password of the successful username being used for the package profile. -/
def runWorker (w : World) (usernames : List String) (credentials : String → String)
    (debData debFile : String) (installLldpd : Bool) : WorkerOut :=
  let t := tryUsers w usernames
  let es := t.1.map WEvent.connectTry
  match t.2 with
  | none => ⟨es, false, none⟩
  | some u =>
    let isBr := checkBuildroot true w.osRelease
    let inst :=
      if isBr then installBuildroot w
      else installDeb w debData debFile (credentials u) installLldpd
    ⟨es ++ [WEvent.detect, WEvent.strategy isBr], inst.2.isNone, some u⟩

/-! ### Orchestrator (src/unnamed/part_011:120-190) -/

/-- The shared failed-host list: each host's worker appends the host at most
once (either on connect failure or on install failure), under the mutex; the
mutex serializes the appends, so the batch is modelled by folding over the
hosts with an accumulator. -/
def batchFailed (worlds : String → World) (usernames : List String)
    (credentials : String → String) (debData debFile : String) (installLldpd : Bool) :
    List String → List String → List String
  | acc, [] => acc
  | acc, h :: t =>
    let r := runWorker (worlds h) usernames credentials debData debFile installLldpd
    batchFailed worlds usernames credentials debData debFile installLldpd
      (if r.succeeded then acc else acc ++ [h]) t

/-- The final summary printed after `wg.Wait()`: total hosts, successful
installs (`len(ips) - len(failedInstalls)`), failed installs, and the failed
list itself. -/
structure BatchSummary where
  total : Nat
  succeeded : Nat
  failed : Nat
  failedHosts : List String
deriving DecidableEq, Repr

/-- `runBatch`: one worker per host, results collected into the failed list,
summary derived exactly as `main` prints it. -/
def runBatch (worlds : String → World) (usernames : List String)
    (credentials : String → String) (debData debFile : String) (installLldpd : Bool)
    (hosts : List String) : BatchSummary :=
  let f := batchFailed worlds usernames credentials debData debFile installLldpd [] hosts
  ⟨hosts.length, hosts.length - f.length, f.length, f⟩

/-! ### Concurrency model of the worker pool (src/unnamed/part_011:120-176)

One status per spawned goroutine: `waiting` (blocked on `sem <- struct`),
`holding` (slot held; the SSH connection is open only during this phase,
since `client.Close()` runs before the deferred slot release), `released`
(slot given back, `wg.Done` still pending) and `done`.  The summary can be
printed only after `wg.Wait()` observes every worker done. -/

/-- Lifecycle phase of one spawned worker goroutine. -/
inductive WStatus
  | waiting
  | holding
  | released
  | done
deriving DecidableEq, Repr

/-- Global state of the pool: the per-worker phases and whether the summary
has been printed. -/
structure PoolState where
  ws : List WStatus
  summaryPrinted : Bool
deriving DecidableEq, Repr

/-- Number of workers currently holding a semaphore slot. -/
def holdingCount (s : PoolState) : Nat :=
  s.ws.countP (fun x => x == WStatus.holding)

/-- The capacity of the semaphore channel `make(chan struct, 10)`. -/
def maxConcurrency : Nat := 10

/-- Interleaving steps of the pool: a waiting worker may acquire a slot only
while fewer than `maxConcurrency` are held; a holding worker releases its
slot; a released worker completes (`wg.Done`); the summary is printed only
when every worker is done (`wg.Wait`). -/
inductive PoolStep : PoolState → PoolState → Prop
  | acquire (i : Nat) (s : PoolState) (h : s.ws.get? i = some WStatus.waiting)
      (hc : holdingCount s < maxConcurrency) :
      PoolStep s ⟨s.ws.set i WStatus.holding, s.summaryPrinted⟩
  | release (i : Nat) (s : PoolState) (h : s.ws.get? i = some WStatus.holding) :
      PoolStep s ⟨s.ws.set i WStatus.released, s.summaryPrinted⟩
  | complete (i : Nat) (s : PoolState) (h : s.ws.get? i = some WStatus.released) :
      PoolStep s ⟨s.ws.set i WStatus.done, s.summaryPrinted⟩
  | printSummary (s : PoolState) (h : ∀ x ∈ s.ws, x = WStatus.done) :
      PoolStep s ⟨s.ws, true⟩

/-- Initial pool state: `n` goroutines spawned, all blocked on admission, no
summary yet. -/
def initPool (n : Nat) : PoolState :=
  ⟨List.replicate n WStatus.waiting, false⟩

/-! ### Concrete example worlds (used by witnesses) -/

/-- A world where every oracle succeeds. -/
def wAllOk (seed : Nat) : World where
  connAttempt := fun _ _ => ConnResult.ok
  osRelease := some "NAME=Buildroot"
  localExists := fun _ => true
  readFile := fun _ => some "AB"
  run := fun _ => true
  scpOk := fun _ _ => true
  seed := seed

/-- A world where every dial attempt is rejected at the authentication level. -/
def wAuthFail : World where
  connAttempt := fun _ _ => ConnResult.authErr
  osRelease := some ""
  localExists := fun _ => true
  readFile := fun _ => some "AB"
  run := fun _ => true
  scpOk := fun _ _ => true
  seed := 0

/-- A world where no local file can be read or found. -/
def wNoLocal : World where
  connAttempt := fun _ _ => ConnResult.ok
  osRelease := some ""
  localExists := fun _ => false
  readFile := fun _ => none
  run := fun _ => true
  scpOk := fun _ _ => true
  seed := 0

/-! ### Helper lemmas -/

/-- Membership in a sequenced trace splits over the two steps. -/
theorem mem_seqR {a : List REvent × Option String} {k : Unit → List REvent × Option String}
    {e : REvent} (h : e ∈ (seqR a k).1) : e ∈ a.1 ∨ e ∈ (k ()).1 := by
  cases ha : a.2 with
  | none => simp [seqR, ha] at h; exact h
  | some e2 => simp [seqR, ha] at h; exact Or.inl h

/-- If any required local artifact is missing, the precondition loop yields an
error. -/
theorem checkLocal_missing (w : World) :
    ∀ l : List (String × String), (∃ f ∈ l, w.localExists f.1 = false) →
      ∃ e, checkLocal w l = some e := by
  intro l
  induction l with
  | nil => rintro ⟨f, hf, _⟩; cases hf
  | cons a t ih =>
    rintro ⟨f, hf, hex⟩
    by_cases ha : w.localExists a.1
    · have hft : f ∈ t := by
        rcases List.mem_cons.mp hf with rfl | hft
        · rw [ha] at hex; exact Bool.noConfusion hex
        · exact hft
      simpa [checkLocal, ha] using ih ⟨f, hft, hex⟩
    · exact ⟨"local file " ++ a.1 ++ " does not exist", by simp [checkLocal, ha]⟩

/-- Every event of the directory-creation loop is a `mkdir -p` command for
one of the destinations. -/
theorem mkdirSteps_events (w : World) :
    ∀ (l : List (String × String)) (e : REvent), e ∈ (mkdirSteps w l).1 →
      ∃ f ∈ l, e = REvent.cmd ("mkdir -p " ++ dirName f.2) := by
  intro l
  induction l with
  | nil => intro e h; simp [mkdirSteps] at h
  | cons a t ih =>
    intro e h
    rcases mem_seqR h with h1 | h2
    · simp [stepRun] at h1
      exact ⟨a, List.mem_cons_self a t, h1⟩
    · obtain ⟨f, hf, he⟩ := ih e h2
      exact ⟨f, List.mem_cons_of_mem a hf, he⟩

/-- Every event of the artifact-transfer loop is a push. -/
theorem transferSteps_events (w : World) :
    ∀ (l : List (String × String)) (e : REvent), e ∈ (transferSteps w l).1 →
      ∃ d p, e = REvent.push d p := by
  intro l
  induction l with
  | nil => intro e h; simp [transferSteps] at h
  | cons a t ih =>
    intro e h
    rw [transferSteps] at h
    cases hr : w.readFile a.1 with
    | none => rw [hr] at h; simp at h
    | some data =>
      rw [hr] at h
      rcases mem_seqR h with h1 | h2
      · simp [transferStep] at h1
        exact ⟨data, a.2, h1⟩
      · exact ih e h2

/-- Every event of the side-bundle step is either the zip push or the
unzip-install command. -/
theorem sideBundle_events (w : World) (password : String) :
    ∀ e ∈ (sideBundle w password).1,
      (∃ d, e = REvent.push d ("/tmp/" ++ baseName "lldpd-packages.zip")) ∨
        e = REvent.cmd (lldpdCmd ("/tmp/" ++ baseName "lldpd-packages.zip") password) := by
  intro e h
  rw [sideBundle] at h
  cases hr : w.readFile "lldpd-packages.zip" with
  | none => rw [hr] at h; simp at h
  | some zipData =>
    rw [hr] at h
    rcases mem_seqR h with h1 | h2
    · simp [transferStep] at h1
      exact Or.inl ⟨zipData, h1⟩
    · simp [stepRun] at h2
      exact Or.inr h2

/-- Unfolding of the credential loop when the head username authenticates. -/
theorem tryUsers_cons_some (w : World) (a : String) (rest : List String) (j : Nat)
    (h : connectSSH (w.connAttempt a) = some j) :
    tryUsers w (a :: rest) = ([a], some a) := by
  simp [tryUsers, h]

/-- Unfolding of the credential loop when the head username fails. -/
theorem tryUsers_cons_none (w : World) (a : String) (rest : List String)
    (h : connectSSH (w.connAttempt a) = none) :
    tryUsers w (a :: rest) = (a :: (tryUsers w rest).1, (tryUsers w rest).2) := by
  simp [tryUsers, h]

/-- The credential loop on a successful lookup: the successful username
authenticates, the tried list is exactly the failing strict prefix followed by
the first success, and the usernames after the first success are never
reached. -/
theorem tryUsers_some (w : World) :
    ∀ (us : List String) (u : String), (tryUsers w us).2 = some u →
      (connectSSH (w.connAttempt u)).isSome = true ∧
      ∃ pre rest, us = pre ++ u :: rest ∧
        (tryUsers w us).1 = pre ++ [u] ∧
        ∀ v ∈ pre, connectSSH (w.connAttempt v) = none := by
  intro us
  induction us with
  | nil => intro u h; simp [tryUsers] at h
  | cons a t ih =>
    intro u h
    cases hc : connectSSH (w.connAttempt a) with
    | some j =>
      rw [tryUsers_cons_some w a t j hc] at h ⊢
      obtain rfl : a = u := by simpa using h
      refine ⟨by rw [hc]; rfl, [], t, rfl, rfl, by simp⟩
    | none =>
      rw [tryUsers_cons_none w a t hc] at h ⊢
      obtain ⟨h1, pre, rest, h2, h3, h4⟩ := ih u h
      refine ⟨h1, a :: pre, rest, by simp [h2], by simp [h3], ?_⟩
      intro v hv
      rcases List.mem_cons.mp hv with rfl | hvp
      · exact hc
      · exact h4 v hvp

/-- The credential loop when every username fails: every username is tried
and none authenticates. -/
theorem tryUsers_none (w : World) :
    ∀ us : List String, (tryUsers w us).2 = none →
      (tryUsers w us).1 = us ∧
      ∀ v ∈ us, connectSSH (w.connAttempt v) = none := by
  intro us
  induction us with
  | nil => intro _; simp [tryUsers]
  | cons a t ih =>
    intro h
    cases hc : connectSSH (w.connAttempt a) with
    | some j => rw [tryUsers_cons_some w a t j hc] at h; cases h
    | none =>
      rw [tryUsers_cons_none w a t hc] at h ⊢
      obtain ⟨h1, h2⟩ := ih h
      refine ⟨by rw [h1], ?_⟩
      intro v hv
      rcases List.mem_cons.mp hv with rfl | hvp
      · exact hc
      · exact h2 v hvp

/-- The batch fold appends exactly the hosts whose worker failed, in order. -/
theorem batchFailed_eq (worlds : String → World) (usernames : List String)
    (credentials : String → String) (debData debFile : String) (installLldpd : Bool) :
    ∀ (hosts acc : List String),
      batchFailed worlds usernames credentials debData debFile installLldpd acc hosts =
        acc ++ hosts.filter
          (fun h => !(runWorker (worlds h) usernames credentials debData debFile installLldpd).succeeded) := by
  intro hosts
  induction hosts with
  | nil => intro acc; simp [batchFailed]
  | cons h t ih =>
    intro acc
    by_cases hs : (runWorker (worlds h) usernames credentials debData debFile installLldpd).succeeded
    · simp [batchFailed, hs, ih]
    · simp [batchFailed, hs, ih, List.filter_cons]

/-- Setting one element changes a `countP` by at most one. -/
theorem countP_set_le {α} (p : α → Bool) :
    ∀ (l : List α) (i : Nat) (a : α), (l.set i a).countP p ≤ l.countP p + 1 := by
  intro l
  induction l with
  | nil => intro i a; simp
  | cons x xs ih =>
    intro i a
    cases i with
    | zero =>
      simp only [List.set, List.countP_cons]
      have h1 : (if p a then 1 else 0) ≤ 1 := by split <;> omega
      omega
    | succ n =>
      simp only [List.set, List.countP_cons]
      have := ih n a
      omega

/-- Setting an element to a value the predicate rejects never increases
`countP`. -/
theorem countP_set_le_of_neg {α} (p : α → Bool) (a : α) (hpa : p a = false) :
    ∀ (l : List α) (i : Nat), (l.set i a).countP p ≤ l.countP p := by
  intro l
  induction l with
  | nil => intro i; simp
  | cons x xs ih =>
    intro i
    cases i with
    | zero =>
      simp only [List.set, List.countP_cons]
      have h1 : (if p a then 1 else 0) = 0 := by simp [hpa]
      omega
    | succ n =>
      simp only [List.set, List.countP_cons]
      have := ih n
      omega

/-- No worker holds a slot in the initial pool. -/
theorem holdingCount_initPool (n : Nat) : holdingCount (initPool n) = 0 := by
  induction n with
  | zero => rfl
  | succ m ih =>
    simp only [holdingCount, initPool, List.replicate_succ, List.countP_cons] at ih ⊢
    simp [ih]

/-- The pool invariant: never more than `maxConcurrency` slots held, and the
summary exists only once every worker is done. -/
def poolInv (s : PoolState) : Prop :=
  holdingCount s ≤ maxConcurrency ∧
    (s.summaryPrinted = true → ∀ x ∈ s.ws, x = WStatus.done)

/-- Every pool step preserves the pool invariant. -/
theorem poolStep_inv {s t : PoolState} (h : PoolStep s t) (hs : poolInv s) : poolInv t := by
  obtain ⟨hcount, hsum⟩ := hs
  cases h with
  | acquire i s hi hc =>
    constructor
    · calc (s.ws.set i WStatus.holding).countP (fun x => x == WStatus.holding)
          ≤ s.ws.countP (fun x => x == WStatus.holding) + 1 := countP_set_le _ s.ws i _
        _ ≤ maxConcurrency := hc
    · intro hp
      have := hsum hp WStatus.waiting (List.get?_mem hi)
      simp at this
  | release i s hi =>
    constructor
    · calc (s.ws.set i WStatus.released).countP (fun x => x == WStatus.holding)
          ≤ s.ws.countP (fun x => x == WStatus.holding) :=
            countP_set_le_of_neg _ _ (by decide) s.ws i
        _ ≤ maxConcurrency := hcount
    · intro hp
      have := hsum hp WStatus.holding (List.get?_mem hi)
      simp at this
  | complete i s hi =>
    constructor
    · calc (s.ws.set i WStatus.done).countP (fun x => x == WStatus.holding)
          ≤ s.ws.countP (fun x => x == WStatus.holding) :=
            countP_set_le_of_neg _ _ (by decide) s.ws i
        _ ≤ maxConcurrency := hcount
    · intro hp
      have := hsum hp WStatus.released (List.get?_mem hi)
      simp at this
  | printSummary s hdone =>
    exact ⟨hcount, fun _ => hdone⟩

/-- The three-attempt retry loop written out: `connectSSH` as nested
conditionals on the first three dial outcomes. -/
theorem connectSSH_unfold (attempt : Nat → ConnResult) :
    connectSSH attempt =
      (if attempt 0 = ConnResult.ok then some 0
       else if attempt 1 = ConnResult.ok then some 1
       else if attempt 2 = ConnResult.ok then some 2
       else none) := rfl

/-- The attempt trace written out: every failure leads to a further attempt
until the fuel is exhausted. -/
theorem connAttempts_unfold (attempt : Nat → ConnResult) :
    connAttempts attempt =
      0 :: (if attempt 0 = ConnResult.ok then []
            else 1 :: (if attempt 1 = ConnResult.ok then []
                       else 2 :: (if attempt 2 = ConnResult.ok then [] else []))) := rfl

/-- The retry loop consults only success-or-failure of each attempt, never
which kind of error occurred. -/
theorem connectLoop_congr (a b : Nat → ConnResult)
    (hab : ∀ i, (a i = ConnResult.ok) = (b i = ConnResult.ok)) :
    ∀ fuel i, connectLoop a fuel i = connectLoop b fuel i ∧
      connectTrace a fuel i = connectTrace b fuel i := by
  intro fuel
  induction fuel with
  | zero => intro i; exact ⟨rfl, rfl⟩
  | succ n ih =>
    intro i
    by_cases hai : a i = ConnResult.ok
    · have hbi : b i = ConnResult.ok := (hab i) ▸ hai
      constructor
      · show (if a i = ConnResult.ok then some i else connectLoop a n (i + 1)) =
            (if b i = ConnResult.ok then some i else connectLoop b n (i + 1))
        rw [if_pos hai, if_pos hbi]
      · show (i :: if a i = ConnResult.ok then [] else connectTrace a n (i + 1)) =
            (i :: if b i = ConnResult.ok then [] else connectTrace b n (i + 1))
        rw [if_pos hai, if_pos hbi]
    · have hbi : ¬b i = ConnResult.ok := by rw [← hab i]; exact hai
      constructor
      · show (if a i = ConnResult.ok then some i else connectLoop a n (i + 1)) =
            (if b i = ConnResult.ok then some i else connectLoop b n (i + 1))
        rw [if_neg hai, if_neg hbi]
        exact (ih (i + 1)).1
      · show (i :: if a i = ConnResult.ok then [] else connectTrace a n (i + 1)) =
            (i :: if b i = ConnResult.ok then [] else connectTrace b n (i + 1))
        rw [if_neg hai, if_neg hbi, (ih (i + 1)).2]

/-- Every command event of the embedded-profile installation is one of the
five fixed remote commands. -/
theorem installBuildroot_cmds (w : World) (c : String)
    (h : REvent.cmd c ∈ (installBuildroot w).1) :
    c = "mkdir -p /opt/status-updater" ∨
    c = "chmod +x /etc/init.d/status-updater" ∨
    c = "update-rc.d status-updater defaults" ∨
    c = "/etc/init.d/status-updater start" ∨
    c = "ps aux | grep status-updater | grep -v grep" := by
  cases hcl : checkLocal w brFiles with
  | some e => simp [installBuildroot, hcl] at h
  | none =>
    have hb : REvent.cmd c ∈ (installBuildrootBody w).1 := by
      simpa [installBuildroot, hcl] using h
    rw [installBuildrootBody] at hb
    rcases mem_seqR hb with h1 | hb
    · obtain ⟨f, hf, he⟩ := mkdirSteps_events w brFiles _ h1
      simp only [REvent.cmd.injEq] at he
      left
      simp only [brFiles, List.mem_cons, List.not_mem_nil, or_false] at hf
      rcases hf with rfl | rfl | rfl <;> (rw [he]; decide)
    · rcases mem_seqR hb with h2 | hb
      · obtain ⟨d, p, he⟩ := transferSteps_events w brFiles _ h2
        exact REvent.noConfusion he
      · rcases mem_seqR hb with h3 | hb
        · simp [transferStep] at h3
        · rcases mem_seqR hb with h4 | hb
          · simp [stepRun] at h4
            exact Or.inr (Or.inl h4)
          · rcases mem_seqR hb with h5 | hb
            · simp [stepRun] at h5
              exact Or.inr (Or.inr (Or.inl h5))
            · rcases mem_seqR hb with h6 | hb
              · simp [stepRun] at h6
                exact Or.inr (Or.inr (Or.inr (Or.inl h6)))
              · simp [stepRun] at hb
                exact Or.inr (Or.inr (Or.inr (Or.inr hb)))

/-! ### Claim theorems -/

/-- C1: after `runBatch` completes, every host in the input list has exactly
one deployment outcome — the failed-host list is exactly the (order-preserving)
filter of the hosts whose worker failed, so each host entry is appended at
most once — and the final summary reports total = number of hosts, failed =
length of the failed list, succeeded = total minus failed. -/
theorem batch_outcome_accounting (worlds : String → World) (usernames : List String)
    (credentials : String → String) (debData debFile : String) (installLldpd : Bool)
    (hosts : List String) :
    (runBatch worlds usernames credentials debData debFile installLldpd hosts).failedHosts =
      hosts.filter
        (fun h => !(runWorker (worlds h) usernames credentials debData debFile installLldpd).succeeded) ∧
    (runBatch worlds usernames credentials debData debFile installLldpd hosts).total =
      hosts.length ∧
    (runBatch worlds usernames credentials debData debFile installLldpd hosts).failed =
      (runBatch worlds usernames credentials debData debFile installLldpd hosts).failedHosts.length ∧
    (runBatch worlds usernames credentials debData debFile installLldpd hosts).succeeded =
      (runBatch worlds usernames credentials debData debFile installLldpd hosts).total -
        (runBatch worlds usernames credentials debData debFile installLldpd hosts).failed ∧
    (runBatch worlds usernames credentials debData debFile installLldpd hosts).failed ≤
      (runBatch worlds usernames credentials debData debFile installLldpd hosts).total ∧
    ∀ h, (runBatch worlds usernames credentials debData debFile installLldpd hosts).failedHosts.count h ≤
      hosts.count h := by
  have hb : batchFailed worlds usernames credentials debData debFile installLldpd [] hosts =
      hosts.filter
        (fun h => !(runWorker (worlds h) usernames credentials debData debFile installLldpd).succeeded) := by
    simpa using batchFailed_eq worlds usernames credentials debData debFile installLldpd hosts []
  refine ⟨hb, rfl, rfl, rfl, ?_, fun h => ?_⟩
  · show (batchFailed worlds usernames credentials debData debFile installLldpd [] hosts).length ≤
      hosts.length
    rw [hb]
    exact List.length_filter_le _ _
  · show (batchFailed worlds usernames credentials debData debFile installLldpd [] hosts).count h ≤
      hosts.count h
    rw [hb]
    exact (List.filter_sublist _).count_le h

/-- C2: the worker tries the ordered credentials in order; the first username
that authenticates is recorded as the one used for the remainder of the
workflow, the usernames before it all failed, and the usernames after it are
never attempted; when every credential fails the outcome is failure, the
event trace consists of connect attempts only, and neither the flavor
detection nor any installation strategy is invoked. -/
theorem credential_first_success (w : World) (usernames : List String)
    (credentials : String → String) (debData debFile : String) (installLldpd : Bool)
    (_hne : usernames ≠ []) :
    (∀ u, (tryUsers w usernames).2 = some u →
      (runWorker w usernames credentials debData debFile installLldpd).usedUser = some u ∧
      (connectSSH (w.connAttempt u)).isSome = true ∧
      (∃ pre rest, usernames = pre ++ u :: rest ∧
        (tryUsers w usernames).1 = pre ++ [u] ∧
        ∀ v ∈ pre, connectSSH (w.connAttempt v) = none) ∧
      (runWorker w usernames credentials debData debFile installLldpd).events =
        (tryUsers w usernames).1.map WEvent.connectTry ++
          [WEvent.detect, WEvent.strategy (checkBuildroot true w.osRelease)]) ∧
    ((tryUsers w usernames).2 = none →
      (runWorker w usernames credentials debData debFile installLldpd).succeeded = false ∧
      (runWorker w usernames credentials debData debFile installLldpd).events =
        usernames.map WEvent.connectTry ∧
      (∀ v ∈ usernames, connectSSH (w.connAttempt v) = none) ∧
      WEvent.detect ∉ (runWorker w usernames credentials debData debFile installLldpd).events ∧
      ∀ b, WEvent.strategy b ∉
        (runWorker w usernames credentials debData debFile installLldpd).events) := by
  constructor
  · intro u h
    obtain ⟨h1, pre, rest, h2, h3, h4⟩ := tryUsers_some w usernames u h
    refine ⟨?_, h1, ⟨pre, rest, h2, h3, h4⟩, ?_⟩
    · simp [runWorker, h]
    · simp [runWorker, h]
  · intro h
    obtain ⟨h1, h2⟩ := tryUsers_none w usernames h
    refine ⟨?_, ?_, h2, ?_, ?_⟩
    · simp [runWorker, h]
    · simp [runWorker, h, h1]
    · simp [runWorker, h]
    · intro b
      simp [runWorker, h]

/-- C2 witness: for a host whose single credential is rejected at every dial
attempt, the worker fails without detection or installation. -/
theorem credential_first_success_witness :
    (runWorker wAuthFail ["root"] (fun _ => "pw") "D" "x.deb" false).succeeded = false ∧
    WEvent.detect ∉ (runWorker wAuthFail ["root"] (fun _ => "pw") "D" "x.deb" false).events := by
  have h := (credential_first_success wAuthFail ["root"] (fun _ => "pw") "D" "x.deb" false
    (by decide)).2 (by decide)
  exact ⟨h.1, h.2.2.2.1⟩

/-- C3 counterexample: with every dial attempt rejected at the authentication
level, `connectSSH` still performs all three internal attempts on that same
credential — the claim that an auth-level rejection is surfaced without an
internal retry (which would mean a single attempt) is false. -/
theorem connect_auth_retry_refuted :
    wAuthFail.connAttempt "root" 0 = ConnResult.authErr ∧
    connAttempts (wAuthFail.connAttempt "root") = [0, 1, 2] ∧
    (connAttempts (wAuthFail.connAttempt "root")).length ≠ 1 := by
  decide

/-- C3 amended: the transport's internal retry (3 attempts, fixed 2-second
delay) applies to every failed dial attempt alike — authentication-level and
network-level failures are retried identically, because the loop branches
only on success; it stops at the first success and otherwise exhausts all
`maxRetries` attempts. -/
theorem connect_retry_all_errors (attempt : Nat → ConnResult) :
    ((∀ i, i < maxRetries → attempt i ≠ ConnResult.ok) →
      connectSSH attempt = none ∧ (connAttempts attempt).length = maxRetries) ∧
    (∀ b : Nat → ConnResult, (∀ i, (attempt i = ConnResult.ok) = (b i = ConnResult.ok)) →
      connectSSH attempt = connectSSH b ∧ connAttempts attempt = connAttempts b) ∧
    (∀ i, connectSSH attempt = some i →
      attempt i = ConnResult.ok ∧ ∀ j, j < i → attempt j ≠ ConnResult.ok) := by
  refine ⟨?_, ?_, ?_⟩
  · intro h
    have h0 := h 0 (by decide)
    have h1 := h 1 (by decide)
    have h2 := h 2 (by decide)
    constructor
    · rw [connectSSH_unfold, if_neg h0, if_neg h1, if_neg h2]
    · rw [connAttempts_unfold, if_neg h0, if_neg h1, if_neg h2]
      rfl
  · intro b hb
    exact ⟨(connectLoop_congr attempt b hb maxRetries 0).1,
           (connectLoop_congr attempt b hb maxRetries 0).2⟩
  · intro i hi
    rw [connectSSH_unfold] at hi
    by_cases h0 : attempt 0 = ConnResult.ok
    · rw [if_pos h0] at hi
      obtain rfl : (0 : Nat) = i := by simpa using hi
      exact ⟨h0, fun j hj => absurd hj (by omega)⟩
    · rw [if_neg h0] at hi
      by_cases h1 : attempt 1 = ConnResult.ok
      · rw [if_pos h1] at hi
        obtain rfl : (1 : Nat) = i := by simpa using hi
        refine ⟨h1, fun j hj => ?_⟩
        have hj0 : j = 0 := by omega
        rw [hj0]
        exact h0
      · rw [if_neg h1] at hi
        by_cases h2 : attempt 2 = ConnResult.ok
        · rw [if_pos h2] at hi
          obtain rfl : (2 : Nat) = i := by simpa using hi
          refine ⟨h2, fun j hj => ?_⟩
          rcases (by omega : j = 0 ∨ j = 1) with hj0 | hj1
          · rw [hj0]; exact h0
          · rw [hj1]; exact h1
        · rw [if_neg h2] at hi
          cases hi

/-- C3 amended witness: a credential failing with network errors on every
attempt is surfaced only after all three internal attempts. -/
theorem connect_retry_all_errors_witness :
    connectSSH (fun _ => ConnResult.netErr) = none ∧
    (connAttempts (fun _ => ConnResult.netErr)).length = maxRetries :=
  (connect_retry_all_errors (fun _ => ConnResult.netErr)).1
    (fun _ _ h => ConnResult.noConfusion h)

/-- C4: in every batch with more than 10 hosts, in every state reachable by
the pool's interleaving semantics, at most `maxConcurrency = 10` workers hold
a semaphore slot simultaneously (the remote connection is open only while a
slot is held), and the summary is printed only once every worker is done. -/
theorem pool_concurrency_bound (n : Nat) (s : PoolState) (_hn : 10 < n)
    (h : Relation.ReflTransGen PoolStep (initPool n) s) :
    holdingCount s ≤ maxConcurrency ∧
      (s.summaryPrinted = true → ∀ x ∈ s.ws, x = WStatus.done) := by
  have base : poolInv (initPool n) := by
    constructor
    · rw [show holdingCount (initPool n) = 0 from holdingCount_initPool n]
      exact Nat.zero_le _
    · intro hp
      exact absurd hp (by simp [initPool])
  induction h with
  | refl => exact base
  | tail _ hstep ih => exact poolStep_inv hstep ih

/-- C4 witness: a batch of 11 workers, one step after the first slot
acquisition. -/
theorem pool_concurrency_bound_witness :
    holdingCount ⟨(initPool 11).ws.set 0 WStatus.holding, (initPool 11).summaryPrinted⟩ ≤
      maxConcurrency :=
  (pool_concurrency_bound 11 _ (by decide)
    (Relation.ReflTransGen.single
      (PoolStep.acquire 0 (initPool 11) (by decide) (by decide)))).1

/-- C5: if any of the three required local artifacts is missing, the
embedded-profile installation fails immediately with an empty remote trace —
no remote command is issued and no file is transferred. -/
theorem buildroot_precondition_no_network (w : World)
    (h : ∃ f ∈ brFiles, w.localExists f.1 = false) :
    (installBuildroot w).1 = [] ∧ (installBuildroot w).2.isSome = true := by
  obtain ⟨e, he⟩ := checkLocal_missing w brFiles h
  rw [installBuildroot, he]
  exact ⟨rfl, rfl⟩

/-- C5 witness: a world with no local files present fails with no remote
events. -/
theorem buildroot_precondition_no_network_witness :
    (installBuildroot wNoLocal).1 = [] ∧ (installBuildroot wNoLocal).2.isSome = true :=
  buildroot_precondition_no_network wNoLocal
    ⟨("status-updater", "/opt/status-updater/status-updater"), by decide, rfl⟩

/-- C6: when a side-bundle install was requested and the side-bundle step
fails (reading the archive, transferring it, or unpacking/installing), the
host's installation aborts with exactly the side-bundle trace: the main
package file is never transferred — every push in the trace targets the
side-bundle's remote zip path. -/
theorem deb_sidebundle_abort (w : World) (debData debFile password : String)
    (h : (sideBundle w password).2.isSome = true) :
    (installDeb w debData debFile password true).1 = (sideBundle w password).1 ∧
    (installDeb w debData debFile password true).2 = (sideBundle w password).2 ∧
    ∀ d p, REvent.push d p ∈ (installDeb w debData debFile password true).1 →
      p = "/tmp/" ++ baseName "lldpd-packages.zip" := by
  obtain ⟨e, he⟩ := Option.isSome_iff_exists.mp h
  have h12 : (installDeb w debData debFile password true).1 = (sideBundle w password).1 ∧
      (installDeb w debData debFile password true).2 = (sideBundle w password).2 := by
    rw [installDeb]
    simp only [if_pos trivial, ite_true]
    rw [seqR, he]
    exact ⟨rfl, rfl⟩
  refine ⟨h12.1, h12.2, fun d p hp => ?_⟩
  rw [h12.1] at hp
  rcases sideBundle_events w password _ hp with ⟨d2, he2⟩ | he2
  · simp only [REvent.push.injEq] at he2
    exact he2.2
  · exact REvent.noConfusion he2

/-- C6 witness: a world where the local zip archive cannot be read aborts the
package-profile installation before any main transfer. -/
theorem deb_sidebundle_abort_witness :
    (installDeb wNoLocal "D" "x.deb" "pw" true).1 = (sideBundle wNoLocal "pw").1 ∧
    (installDeb wNoLocal "D" "x.deb" "pw" true).2 = (sideBundle wNoLocal "pw").2 :=
  ⟨(deb_sidebundle_abort wNoLocal "D" "x.deb" "pw" (by decide)).1,
   (deb_sidebundle_abort wNoLocal "D" "x.deb" "pw" (by decide)).2.1⟩

/-- C7: the flavor detector is total over two values (its codomain is `Bool`:
`true` models Embedded, `false` PackageManaged); it returns Embedded exactly
when the session exists, the single os-release read succeeds and the output
contains "Buildroot", and any failure of the read resolves to PackageManaged. -/
theorem flavor_detector_total (sessionOk : Bool) (runResult : Option String) :
    (checkBuildroot sessionOk runResult = true ↔
      sessionOk = true ∧ ∃ out, runResult = some out ∧ strContains out "Buildroot" = true) ∧
    checkBuildroot sessionOk none = false ∧
    checkBuildroot false runResult = false := by
  cases sessionOk <;> cases runResult <;> simp [checkBuildroot]

/-- C8: the startup jitter `d` drawn for the generated supervisor script
satisfies `0 ≤ d < 600`; the generated script embeds `sleep d`; every value in
`[0, 600)` is attainable (the modelled `rand.Intn` is uniform over that
range); and the embedded-profile installation pushes exactly that script to
the init path. -/
theorem init_script_jitter (seed : Nat) :
    randIntn 600 seed < 600 ∧
    (∃ pre post, genInitScript (randIntn 600 seed) =
      pre ++ ("sleep " ++ toString (randIntn 600 seed)) ++ post) ∧
    (∀ k, k < 600 → ∃ s, randIntn 600 s = k) ∧
    REvent.push (genInitScript (randIntn 600 seed)) "/etc/init.d/status-updater" ∈
      (installBuildroot (wAllOk seed)).1 := by
  refine ⟨Nat.mod_lt _ (by decide), ⟨initHead, initTail, rfl⟩,
    fun k hk => ⟨k, Nat.mod_eq_of_lt hk⟩, ?_⟩
  simp [installBuildroot, installBuildrootBody, wAllOk, checkLocal, brFiles, mkdirSteps,
    transferSteps, transferStep, stepRun, seqR, transferFile]

/-- C8 witness: the extreme jitter value 599 is attainable. -/
theorem init_script_jitter_witness :
    randIntn 600 0 < 600 ∧ ∃ s, randIntn 600 s = 599 :=
  ⟨(init_script_jitter 0).1, (init_script_jitter 0).2.2.1 599 (by decide)⟩

/-- C9: the push protocol is deterministic in the payload, the path and the
remote responder, so pushing identical bytes to the same path twice in
succession produces the same outcome both times, and each push emits the same
stream: the single-file header (fixed mode, payload length, basename) followed
by the raw bytes and one terminating null byte. -/
theorem transfer_protocol_idempotent (remote : String → String → Bool)
    (data remotePath : String) :
    pushSeq remote [(data, remotePath), (data, remotePath)] =
      [transferFile remote data remotePath, transferFile remote data remotePath] ∧
    (pushSeq remote [(data, remotePath), (data, remotePath)]).get? 0 =
      (pushSeq remote [(data, remotePath), (data, remotePath)]).get? 1 ∧
    scpHeader data remotePath =
      "C0644 " ++ toString data.length ++ " " ++ baseName remotePath ++ "\n" ∧
    scpStream data remotePath = scpHeader data remotePath ++ data ++ "\x00" :=
  ⟨rfl, rfl, rfl, rfl⟩

/-- C10: every pushed file is declared with the fixed mode 0644 in the sink
header regardless of its role, and in the embedded-profile installation the
only remote command starting with "chmod" is the one marking the generated
init script executable — in particular the pushed service binary is never
chmodded. -/
theorem transfer_mode_and_chmod (w : World) (data remotePath : String) :
    (∃ rest, scpStream data remotePath = "C0644 " ++ rest) ∧
    (∀ c, REvent.cmd c ∈ (installBuildroot w).1 → strLeads c "chmod" = true →
      c = "chmod +x /etc/init.d/status-updater") ∧
    REvent.cmd "chmod +x /opt/status-updater/status-updater" ∉ (installBuildroot w).1 := by
  refine ⟨?_, ?_, ?_⟩
  · refine ⟨toString data.length ++ " " ++ baseName remotePath ++ "\n" ++ data ++ "\x00", ?_⟩
    simp [scpStream, scpHeader, String.append_assoc]
  · intro c hc hlead
    rcases installBuildroot_cmds w c hc with rfl | rfl | rfl | rfl | rfl
    · exact absurd hlead (by decide)
    · rfl
    · exact absurd hlead (by decide)
    · exact absurd hlead (by decide)
    · exact absurd hlead (by decide)
  · intro hmem
    rcases installBuildroot_cmds w _ hmem with h | h | h | h | h <;>
      exact absurd h (by decide)

/-- C10 witness: in an all-success world the chmod command in the trace is the
init-script one, and the binary path is never chmodded. -/
theorem transfer_mode_and_chmod_witness :
    "chmod +x /etc/init.d/status-updater" = "chmod +x /etc/init.d/status-updater" ∧
    REvent.cmd "chmod +x /opt/status-updater/status-updater" ∉
      (installBuildroot (wAllOk 0)).1 :=
  ⟨(transfer_mode_and_chmod (wAllOk 0) "AB" "/tmp/x").2.1
      "chmod +x /etc/init.d/status-updater" (by decide) (by decide),
   (transfer_mode_and_chmod (wAllOk 0) "AB" "/tmp/x").2.2⟩

end StatusUpdater
